import Mathlib

/-
  Verification of the short-form video pipeline (src/pipeline.py).

  Shallow embedding conventions:
  - Filesystem paths are strings joined with "/" (the program runs pathlib
    in POSIX style); `pyBaseName`, `nameStem`, `nameSuffix` follow CPython's
    `PurePath.name` / `.stem` / `.suffix` on the final path component.
  - The external encoder (`subprocess.run(cmd, check=True, capture_output=True)`)
    is abstracted as an oracle `List String → EncResult` on the argv list:
    it exits 0 (`success`), exits non-zero (`calledProcessError stderr`,
    the only exception caught by `process_video`), or raises some other
    exception while launching (`otherError`, e.g. FileNotFoundError).
  - Printed lines are collected in a `List String` log; an uncaught Python
    exception is `Except.error`.
  - Directory state for `mkdir` is the list of directories that exist.
-/

namespace Pipeline

/-- Encoding parameters of a preset, the value type of the `presets` dict in
`VideoPipeline._load_preset`. -/
structure Preset where
  width : Nat
  height : Nat
  fps : Nat
  bitrate : String
  codec : String
  deriving DecidableEq, Repr

/-- The static preset table from `VideoPipeline._load_preset`. -/
def presets : List (String × Preset) :=
  [("tiktok", ⟨1080, 1920, 30, "5M", "h264_nvenc"⟩),
   ("youtube", ⟨1080, 1920, 60, "8M", "h264_nvenc"⟩)]

/-- `VideoPipeline._load_preset`: `presets.get(preset, presets['tiktok'])`. -/
def load_preset (preset : String) : Preset :=
  match presets.lookup preset with
  | some c => c
  | none =>
    match presets.lookup "tiktok" with
    | some c => c
    | none => ⟨0, 0, 0, "", ""⟩

/-- Index of the last '.' in a character list, if any. -/
def lastDotIdx : List Char → Option Nat
  | [] => none
  | c :: cs =>
    match lastDotIdx cs with
    | some i => some (i + 1)
    | none => if c = '.' then some 0 else none

/-- CPython `PurePath.suffix` on a final path component: the substring from
the last '.' when that dot is neither first nor last, else `""`. -/
def nameSuffix (name : String) : String :=
  match lastDotIdx name.data with
  | some i => if 0 < i ∧ i + 1 < name.length then ⟨name.data.drop i⟩ else ""
  | none => ""

/-- CPython `PurePath.stem` on a final path component. -/
def nameStem (name : String) : String :=
  match lastDotIdx name.data with
  | some i => if 0 < i ∧ i + 1 < name.length then ⟨name.data.take i⟩ else name
  | none => name

/-- CPython `PurePath.name`: the final component of a "/"-joined path. -/
def pyBaseName (p : String) : String :=
  ⟨(p.data.reverse.takeWhile (fun c => c ≠ '/')).reverse⟩

/-- `Path.stem` of a full path: stem of its final component. -/
def pathStem (p : String) : String :=
  nameStem (pyBaseName p)

/-- ASCII lowercasing, `str.lower()` on the ASCII file extensions involved. -/
def pyLower (s : String) : String :=
  ⟨s.data.map Char.toLower⟩

/-- The `video_extensions` set in `VideoPipeline.run`. -/
def video_extensions : List String :=
  [".mp4", ".mkv", ".avi", ".mov"]

/-- What a directory entry returned by `input_dir.iterdir()` is: a name and
a kind (regular file or subdirectory).  `iterdir` yields both. -/
inductive EntryKind
  | file
  | dir
  deriving DecidableEq, Repr

/-- A directory entry of the input directory. -/
structure Entry where
  name : String
  kind : EntryKind
  deriving DecidableEq, Repr

/-- The filter condition of the list comprehension in `VideoPipeline.run`:
`f.suffix.lower() in video_extensions`. -/
def matches_video (e : Entry) : Bool :=
  video_extensions.contains (pyLower (nameSuffix e.name))

/-- The list comprehension in `VideoPipeline.run` selecting input files. -/
def selectJobs (entries : List Entry) : List Entry :=
  entries.filter matches_video

/-- Output path derivation in `process_video`:
`self.output_dir / f"{input_file.stem}_processed.mp4"`. -/
def output_path (output_dir input_file : String) : String :=
  output_dir ++ "/" ++ (pathStem input_file ++ "_processed.mp4")

/-- The `-vf` filter string built in `process_video`. -/
def vf_filter (config : Preset) : String :=
  "scale=" ++ toString config.width ++ ":" ++ toString config.height ++
    ":force_original_aspect_ratio=decrease,pad=" ++ toString config.width ++
    ":" ++ toString config.height ++ ":(ow-iw)/2:(oh-ih)/2"

/-- The argv list `cmd` built in `process_video`. -/
def ffmpeg_cmd (config : Preset) (input_file output_file : String) : List String :=
  ["ffmpeg",
   "-hwaccel", "cuda",
   "-i", input_file,
   "-vf", vf_filter config,
   "-c:v", config.codec,
   "-b:v", config.bitrate,
   "-r", toString config.fps,
   "-c:a", "aac",
   "-b:a", "128k",
   "-y",
   output_file]

/-- Outcome of one invocation of the external encoder process. -/
inductive EncResult
  | success
  | calledProcessError (stderr : String)
  | otherError (msg : String)
  deriving DecidableEq, Repr

/-- The `VideoPipeline` object state after `__init__`: directories and the
resolved preset config. -/
structure VideoPipeline where
  input_dir : String
  output_dir : String
  config : Preset
  deriving DecidableEq, Repr

/-- `VideoPipeline.process_video`: builds the command, runs the encoder,
returns the output path on exit 0, returns `none` (Python `None`) after
catching `CalledProcessError` on non-zero exit, and lets any other
exception escape (`Except.error`).  First component: printed lines. -/
def process_video (p : VideoPipeline) (enc : List String → EncResult)
    (input_file : String) : Except String (List String × Option String) :=
  let output_file := output_path p.output_dir input_file
  let cmd := ffmpeg_cmd p.config input_file output_file
  match enc cmd with
  | .success =>
    .ok (["Processing: " ++ pyBaseName input_file,
          "✓ Completed: " ++ pyBaseName output_file], some output_file)
  | .calledProcessError stderr =>
    .ok (["Processing: " ++ pyBaseName input_file,
          "✗ Error processing " ++ pyBaseName input_file ++ ": " ++ stderr], none)
  | .otherError msg => .error msg

/-- The `for input_file in input_files` loop body of `VideoPipeline.run`,
sequentially processing each file; result pairs each file with the value
`process_video` returned for it. -/
def run_jobs (p : VideoPipeline) (enc : List String → EncResult) :
    List String → Except String (List String × List (String × Option String))
  | [] => .ok ([], [])
  | f :: fs =>
    match process_video p enc f with
    | .error e => .error e
    | .ok (log, r) =>
      match run_jobs p enc fs with
      | .error e => .error e
      | .ok (logs, rs) => .ok (log ++ logs, (f, r) :: rs)

/-- `VideoPipeline.run`: select files by extension, report when none found,
otherwise process each and print the final summary. -/
def run (p : VideoPipeline) (enc : List String → EncResult)
    (entries : List Entry) :
    Except String (List String × List (String × Option String)) :=
  let files := (selectJobs entries).map (fun e => p.input_dir ++ "/" ++ e.name)
  if files.isEmpty then
    .ok (["No video files found in " ++ p.input_dir], [])
  else
    match run_jobs p enc files with
    | .error e => .error e
    | .ok (log, rs) =>
      .ok (("Found " ++ toString files.length ++ " video(s) to process") ::
             log ++ ["✓ Pipeline complete! Output: " ++ p.output_dir], rs)

/-- Directories created along with `d` by `mkdir(parents=True)`: every
proper ancestor of `d`. -/
def properAncestors (d : String) : List String :=
  let parts := (d.splitOn "/").dropLast
  (List.range parts.length).map (fun i => String.intercalate "/" (parts.take (i + 1)))

/-- `Path.mkdir(parents=..., exist_ok=...)` over a directory-set state:
raises FileExistsError when `d` exists unless `exist_ok`, raises
FileNotFoundError when the parent is missing unless `parents`. -/
def mkdir (fs : List String) (d : String) (parents exist_ok : Bool) :
    Except String (List String) :=
  if fs.contains d then
    if exist_ok then .ok fs else .error ("FileExistsError: " ++ d)
  else if parents then
    .ok (d :: (properAncestors d ++ fs))
  else
    match (d.splitOn "/").dropLast with
    | [] => .ok (d :: fs)
    | ps =>
      if fs.contains (String.intercalate "/" ps) then .ok (d :: fs)
      else .error ("FileNotFoundError: " ++ d)

/-- `VideoPipeline.__init__`: create the output directory
(`mkdir(parents=True, exist_ok=True)`), resolve the preset. -/
def init (fs : List String) (input_dir output_dir preset : String) :
    Except String (List String × VideoPipeline) :=
  match mkdir fs output_dir true true with
  | .error e => .error e
  | .ok fs2 => .ok (fs2, ⟨input_dir, output_dir, load_preset preset⟩)

/-- `main` after argument parsing: construct the pipeline, run it.  The
result carries the final directory state, the printed lines and the
per-file outcomes. -/
def main_run (enc : List String → EncResult) (fs : List String)
    (entries : List Entry) (input_dir output_dir preset : String) :
    Except String (List String × List String × List (String × Option String)) :=
  match init fs input_dir output_dir preset with
  | .error e => .error e
  | .ok (fs2, p) =>
    match run p enc entries with
    | .error e => .error e
    | .ok (log, rs) => .ok (fs2, log, rs)

/-- Process exit status of one program run: 0 when `main` returns normally,
1 when an exception propagates out (CPython's behavior). -/
def main_exit (enc : List String → EncResult) (fs : List String)
    (entries : List Entry) (input_dir output_dir preset : String) : Nat :=
  match main_run enc fs entries input_dir output_dir preset with
  | .ok _ => 0
  | .error _ => 1

/-- `VideoPipeline.add_captions`: prints a line and returns the input file
unchanged (the TODO body). -/
def add_captions (video_file : String) : List String × String :=
  (["Adding captions to: " ++ pyBaseName video_file], video_file)

/-- C1: For every input file, every preset name and every output directory,
the external command built by `process_video` has exactly the fixed shape:
the hardware-acceleration hint "cuda", the input path, a video filter that
scales to fit within the preset's width and height preserving aspect ratio
and then pads with centered placement to the exact width and height, the
video codec, bitrate and frame rate taken from the resolved preset, audio
codec "aac" at bitrate "128k", the overwrite flag "-y", and output path
`output_dir/(input_stem)_processed.mp4`. -/
theorem cmd_has_fixed_shape (preset input_file output_dir : String) :
    ffmpeg_cmd (load_preset preset) input_file (output_path output_dir input_file) =
      ["ffmpeg",
       "-hwaccel", "cuda",
       "-i", input_file,
       "-vf", "scale=" ++ toString (load_preset preset).width ++ ":" ++
         toString (load_preset preset).height ++
         ":force_original_aspect_ratio=decrease,pad=" ++
         toString (load_preset preset).width ++ ":" ++
         toString (load_preset preset).height ++ ":(ow-iw)/2:(oh-ih)/2",
       "-c:v", (load_preset preset).codec,
       "-b:v", (load_preset preset).bitrate,
       "-r", toString (load_preset preset).fps,
       "-c:a", "aac",
       "-b:a", "128k",
       "-y",
       output_dir ++ "/" ++ (pathStem input_file ++ "_processed.mp4")] := rfl

/-- C2: Resolving "tiktok" returns exactly width 1080, height 1920, fps 30,
bitrate "5M", codec "h264_nvenc"; resolving "youtube" returns exactly width
1080, height 1920, fps 60, bitrate "8M", codec "h264_nvenc"; and resolving
any other string falls back to the tiktok tuple rather than failing. -/
theorem preset_resolution :
    load_preset "tiktok" = ⟨1080, 1920, 30, "5M", "h264_nvenc"⟩ ∧
    load_preset "youtube" = ⟨1080, 1920, 60, "8M", "h264_nvenc"⟩ ∧
    ∀ s : String, s ≠ "tiktok" → s ≠ "youtube" →
      load_preset s = load_preset "tiktok" := by
  refine ⟨by decide, by decide, ?_⟩
  intro s h1 h2
  have e1 : (s == "tiktok") = false := beq_eq_false_iff_ne.mpr h1
  have e2 : (s == "youtube") = false := beq_eq_false_iff_ne.mpr h2
  simp [load_preset, presets, List.lookup, e1, e2]

/-- Witness for C2: the unsupported preset name "instagram" resolves to the
tiktok preset. -/
theorem preset_resolution_witness :
    load_preset "instagram" = load_preset "tiktok" :=
  preset_resolution.2.2 "instagram" (by decide) (by decide)

/-- C3: The batch runner selects, as jobs, exactly the entries of the input
directory whose extension, compared case-insensitively, is one of .mp4,
.mkv, .avi, .mov; for a directory with a.mp4, b.MKV, c.txt, d.avi exactly
a.mp4, b.MKV, d.avi are selected and c.txt is excluded. -/
theorem selection_by_extension :
    (∀ (entries : List Entry) (e : Entry),
        e ∈ selectJobs entries ↔
          e ∈ entries ∧ pyLower (nameSuffix e.name) ∈ video_extensions) ∧
    selectJobs [⟨"a.mp4", .file⟩, ⟨"b.MKV", .file⟩, ⟨"c.txt", .file⟩, ⟨"d.avi", .file⟩] =
      [⟨"a.mp4", .file⟩, ⟨"b.MKV", .file⟩, ⟨"d.avi", .file⟩] := by
  refine ⟨?_, by decide⟩
  intro entries e
  simp [selectJobs, List.mem_filter, matches_video, List.elem_iff]

/-- C5: The derived output path is
`output_dir / (input_stem ++ "_processed.mp4")`; for input clip.mov in
directory `in` with output directory `out` it is exactly
out/clip_processed.mp4. -/
theorem output_path_shape :
    (∀ output_dir input_file : String,
        output_path output_dir input_file =
          output_dir ++ "/" ++ (pathStem input_file ++ "_processed.mp4")) ∧
    output_path "out" "in/clip.mov" = "out/clip_processed.mp4" :=
  ⟨fun _ _ => rfl, by decide⟩

/-- C8: The captioning step is a no-op passthrough: for every path p,
`add_captions p` returns p unchanged. -/
theorem add_captions_identity (p : String) : (add_captions p).2 = p := rfl

/-- C9: File enumeration tests only the entry's suffix, never whether the
entry is a regular file: the selection predicate is independent of the
entry kind, and a subdirectory named clips.mov is selected as a job. -/
theorem selection_ignores_kind :
    (∀ (name : String) (k k2 : EntryKind),
        matches_video ⟨name, k⟩ = matches_video ⟨name, k2⟩) ∧
    selectJobs [⟨"clips.mov", EntryKind.dir⟩] = [⟨"clips.mov", EntryKind.dir⟩] :=
  ⟨fun _ _ _ => rfl, by decide⟩

/-- The directory state `mkdir(parents=True, exist_ok=True)` produces. -/
def mkdir_result (fs : List String) (d : String) : List String :=
  if fs.contains d then fs else d :: (properAncestors d ++ fs)

/-- With `parents=True, exist_ok=True`, `mkdir` never raises. -/
theorem mkdir_parents_exist_ok (fs : List String) (d : String) :
    mkdir fs d true true = Except.ok (mkdir_result fs d) := by
  unfold mkdir mkdir_result
  by_cases h : d ∈ fs <;> simp [h]

/-- The created directory exists afterwards. -/
theorem mem_mkdir_result (fs : List String) (d : String) :
    d ∈ mkdir_result fs d := by
  unfold mkdir_result
  by_cases h : d ∈ fs <;> simp [h]

/-- When every encoder invocation exits with a status (no launch
exception), the job loop completes, yields one outcome per file in order,
and records each non-zero-status failure with its stderr text in the log
and as a `none` outcome. -/
theorem run_jobs_no_abort (p : VideoPipeline) (enc : List String → EncResult)
    (files : List String)
    (h : ∀ c m, enc c ≠ EncResult.otherError m) :
    ∃ log rs, run_jobs p enc files = Except.ok (log, rs) ∧
      rs.map Prod.fst = files ∧
      ∀ f ∈ files, ∀ err,
        enc (ffmpeg_cmd p.config f (output_path p.output_dir f)) =
            EncResult.calledProcessError err →
          ("✗ Error processing " ++ pyBaseName f ++ ": " ++ err) ∈ log ∧
          (f, none) ∈ rs := by
  induction files with
  | nil => exact ⟨[], [], rfl, rfl, by simp⟩
  | cons f fs ih =>
    obtain ⟨log, rs, heq, hfst, hrec⟩ := ih
    cases henc : enc (ffmpeg_cmd p.config f (output_path p.output_dir f)) with
    | success =>
      refine ⟨["Processing: " ++ pyBaseName f,
               "✓ Completed: " ++ pyBaseName (output_path p.output_dir f)] ++ log,
              (f, some (output_path p.output_dir f)) :: rs, ?_, ?_, ?_⟩
      · simp [run_jobs, process_video, henc, heq]
      · simp [hfst]
      · intro g hg err hgerr
        rcases List.mem_cons.mp hg with hgf | hgfs
        · subst hgf
          rw [henc] at hgerr
          exact EncResult.noConfusion hgerr
        · obtain ⟨h1, h2⟩ := hrec g hgfs err hgerr
          exact ⟨by simp [h1], by simp [h2]⟩
    | calledProcessError st =>
      refine ⟨["Processing: " ++ pyBaseName f,
               "✗ Error processing " ++ pyBaseName f ++ ": " ++ st] ++ log,
              (f, none) :: rs, ?_, ?_, ?_⟩
      · simp [run_jobs, process_video, henc, heq]
      · simp [hfst]
      · intro g hg err hgerr
        rcases List.mem_cons.mp hg with hgf | hgfs
        · subst hgf
          rw [henc] at hgerr
          injection hgerr with hst
          subst hst
          exact ⟨by simp, by simp⟩
        · obtain ⟨h1, h2⟩ := hrec g hgfs err hgerr
          exact ⟨by simp [h1], by simp [h2]⟩
    | otherError m => exact absurd henc (h _ m)

/-- `run_jobs_no_abort` lifted to `VideoPipeline.run`: selection, the job
loop and the summary line. -/
theorem run_no_abort (p : VideoPipeline) (enc : List String → EncResult)
    (entries : List Entry)
    (h : ∀ c m, enc c ≠ EncResult.otherError m) :
    ∃ log rs, run p enc entries = Except.ok (log, rs) ∧
      rs.map Prod.fst = (selectJobs entries).map (fun e => p.input_dir ++ "/" ++ e.name) ∧
      ∀ f ∈ (selectJobs entries).map (fun e => p.input_dir ++ "/" ++ e.name), ∀ err,
        enc (ffmpeg_cmd p.config f (output_path p.output_dir f)) =
            EncResult.calledProcessError err →
          ("✗ Error processing " ++ pyBaseName f ++ ": " ++ err) ∈ log ∧
          (f, none) ∈ rs := by
  obtain ⟨log, rs, heq, hfst, hrec⟩ :=
    run_jobs_no_abort p enc ((selectJobs entries).map (fun e => p.input_dir ++ "/" ++ e.name)) h
  by_cases hemp : ((selectJobs entries).map (fun e => p.input_dir ++ "/" ++ e.name)).isEmpty
  · refine ⟨["No video files found in " ++ p.input_dir], [], ?_, ?_, ?_⟩
    · simp [run, hemp]
    · simp [List.isEmpty_iff.mp hemp]
    · intro f hf
      rw [List.isEmpty_iff.mp hemp] at hf
      exact absurd hf (List.not_mem_nil f)
  · refine ⟨("Found " ++ toString ((selectJobs entries).map
        (fun e => p.input_dir ++ "/" ++ e.name)).length ++ " video(s) to process") ::
          log ++ ["✓ Pipeline complete! Output: " ++ p.output_dir], rs, ?_, hfst, ?_⟩
    · simp [run, hemp, heq]
    · intro f hf err herr
      obtain ⟨h1, h2⟩ := hrec f hf err herr
      exact ⟨by simp [h1], h2⟩

/-- An encoder oracle on which every invocation exits with status 1. -/
def enc_boom : List String → EncResult :=
  fun _ => EncResult.calledProcessError "boom"

/-- A concrete pipeline object: input directory `in`, output directory
`out`, tiktok preset. -/
def p0 : VideoPipeline := ⟨"in", "out", load_preset "tiktok"⟩

/-- C4: For every batch whose external invocations all exit with a status,
the run completes with one recorded outcome per selected file in order, and
every job whose invocation exits non-zero is recorded as failed (`none`)
with its captured stderr text reported in the log, while all other files
are still processed: a single job's failure never aborts the batch. -/
theorem batch_survives_job_failure (p : VideoPipeline)
    (enc : List String → EncResult) (entries : List Entry)
    (h : ∀ c m, enc c ≠ EncResult.otherError m) :
    ∃ log rs, run p enc entries = Except.ok (log, rs) ∧
      rs.map Prod.fst = (selectJobs entries).map (fun e => p.input_dir ++ "/" ++ e.name) ∧
      ∀ f ∈ (selectJobs entries).map (fun e => p.input_dir ++ "/" ++ e.name), ∀ err,
        enc (ffmpeg_cmd p.config f (output_path p.output_dir f)) =
            EncResult.calledProcessError err →
          ("✗ Error processing " ++ pyBaseName f ++ ": " ++ err) ∈ log ∧
          (f, none) ∈ rs :=
  run_no_abort p enc entries h

/-- Witness for C4: with an encoder failing on every file, a two-file batch
still completes and records both outcomes. -/
theorem batch_survives_job_failure_witness :
    ∃ log rs, run p0 enc_boom [⟨"a.mp4", .file⟩, ⟨"b.mp4", .file⟩] = Except.ok (log, rs) ∧
      rs.map Prod.fst = (selectJobs [⟨"a.mp4", .file⟩, ⟨"b.mp4", .file⟩]).map
        (fun e => p0.input_dir ++ "/" ++ e.name) ∧
      ∀ f ∈ (selectJobs [⟨"a.mp4", .file⟩, ⟨"b.mp4", .file⟩]).map
          (fun e => p0.input_dir ++ "/" ++ e.name), ∀ err,
        enc_boom (ffmpeg_cmd p0.config f (output_path p0.output_dir f)) =
            EncResult.calledProcessError err →
          ("✗ Error processing " ++ pyBaseName f ++ ": " ++ err) ∈ log ∧
          (f, none) ∈ rs :=
  batch_survives_job_failure p0 enc_boom [⟨"a.mp4", .file⟩, ⟨"b.mp4", .file⟩]
    (fun c m => by simp [enc_boom])

/-- C6: For every starting directory state, creating the output directory
succeeds (also when it already exists), the output directory exists before
any job runs and no existing directory is lost; and on an empty input
directory the whole run returns normally with zero jobs, zero outcomes and
the "No video files found" report. -/
theorem output_dir_ready_and_empty_input_ok (fs : List String)
    (input_dir output_dir preset : String) :
    ∃ fs2, mkdir fs output_dir true true = Except.ok fs2 ∧ output_dir ∈ fs2 ∧
      (∀ x ∈ fs, x ∈ fs2) ∧
      ∀ enc : List String → EncResult,
        main_run enc fs [] input_dir output_dir preset =
          Except.ok (fs2, ["No video files found in " ++ input_dir], []) := by
  refine ⟨mkdir_result fs output_dir, mkdir_parents_exist_ok fs output_dir,
    mem_mkdir_result fs output_dir, ?_, ?_⟩
  · intro x hx
    unfold mkdir_result
    by_cases h : output_dir ∈ fs <;> simp [h, hx]
  · intro enc
    unfold main_run init
    rw [mkdir_parents_exist_ok]
    rfl

/-- C7: Whenever every external invocation exits with a status (job
failures included), the process exit status is 0, however many individual
jobs failed. -/
theorem exit_status_zero (enc : List String → EncResult) (fs : List String)
    (entries : List Entry) (input_dir output_dir preset : String)
    (h : ∀ c m, enc c ≠ EncResult.otherError m) :
    main_exit enc fs entries input_dir output_dir preset = 0 := by
  obtain ⟨log, rs, heq, -, -⟩ :=
    run_no_abort ⟨input_dir, output_dir, load_preset preset⟩ enc entries h
  unfold main_exit main_run init
  rw [mkdir_parents_exist_ok]
  simp [heq]

/-- Witness for C7: a run whose single job fails still exits 0. -/
theorem exit_status_zero_witness :
    main_exit enc_boom [] [⟨"a.mp4", .file⟩] "in" "out" "tiktok" = 0 :=
  exit_status_zero enc_boom [] [⟨"a.mp4", .file⟩] "in" "out" "tiktok"
    (fun c m => by simp [enc_boom])

/-- C10: Only the non-zero-exit-status failure is recovered per file: an
exception raised while launching the encoder propagates out of
`process_video` uncaught, and a batch reaching such a job aborts there,
whatever files follow. -/
theorem launch_exception_aborts_batch (p : VideoPipeline)
    (enc : List String → EncResult) (f m : String)
    (henc : enc (ffmpeg_cmd p.config f (output_path p.output_dir f)) =
      EncResult.otherError m) :
    process_video p enc f = Except.error m ∧
    ∀ fs1 fs2 : List String,
      (∀ g ∈ fs1, ∀ m2,
          enc (ffmpeg_cmd p.config g (output_path p.output_dir g)) ≠
            EncResult.otherError m2) →
      run_jobs p enc (fs1 ++ f :: fs2) = Except.error m := by
  have hpv : process_video p enc f = Except.error m := by
    simp [process_video, henc]
  refine ⟨hpv, ?_⟩
  intro fs1
  induction fs1 with
  | nil =>
    intro fs2 _
    simp [run_jobs, hpv]
  | cons g gs ih =>
    intro fs2 hno
    have hg := hno g (List.mem_cons_self g gs)
    cases hencg : enc (ffmpeg_cmd p.config g (output_path p.output_dir g)) with
    | otherError m2 => exact absurd hencg (hg m2)
    | success =>
      have hrest := ih fs2 (fun x hx => hno x (List.mem_cons_of_mem g hx))
      simp [run_jobs, process_video, hencg, hrest]
    | calledProcessError st =>
      have hrest := ih fs2 (fun x hx => hno x (List.mem_cons_of_mem g hx))
      simp [run_jobs, process_video, hencg, hrest]

/-- An oracle raising FileNotFoundError only on the invocation for
`in/b.mp4`, succeeding elsewhere. -/
def enc_raises_on_b : List String → EncResult := fun c =>
  if c.contains "in/b.mp4" then EncResult.otherError "FileNotFoundError: ffmpeg"
  else EncResult.success

/-- Witness for C10: the launch exception on the second of three files
escapes `process_video` and aborts the whole batch. -/
theorem launch_exception_aborts_batch_witness :
    process_video p0 enc_raises_on_b "in/b.mp4" =
      Except.error "FileNotFoundError: ffmpeg" ∧
    run_jobs p0 enc_raises_on_b ["in/a.mp4", "in/b.mp4", "in/c.mp4"] =
      Except.error "FileNotFoundError: ffmpeg" := by
  have h := launch_exception_aborts_batch p0 enc_raises_on_b "in/b.mp4"
    "FileNotFoundError: ffmpeg" (by decide)
  refine ⟨h.1, ?_⟩
  have h2 := h.2 ["in/a.mp4"] ["in/c.mp4"] ?_
  · exact h2
  · intro g hg m2 hbad
    simp only [List.mem_singleton] at hg
    subst hg
    rw [show enc_raises_on_b (ffmpeg_cmd p0.config "in/a.mp4"
      (output_path p0.output_dir "in/a.mp4")) = EncResult.success by decide] at hbad
    exact EncResult.noConfusion hbad

end Pipeline
